import Mathlib

set_option maxRecDepth 4000
set_option maxHeartbeats 1000000

/-!
Verification development for the rx-socket-client repository
(src/lib/rx-socket-client.subject.ts).

The file gives a shallow embedding of

1. the JavaScript value model used on the wire (strings are lists of code
   units, buffers are byte lists, objects are key/value field lists),
2. the default message codec of the class (the private methods _serializer
   and _deserializer, lines 416-434),
3. the inbound message normalization and filtering pipeline (the private
   method called by on and by the observable returning variant of on,
   lines 317-333, together with the data projection of lines 198-215 and
   247-252),
4. the reconnection state machine formed by the constructor (lines 69-144),
   _cleanSocket, _cleanReconnection, _connect, _reconnect (lines 340-406),
   and the send method (lines 163-165),
5. the rx view semantics needed for the error re-exposing stream of
   lines 259-264.

External collaborators are modelled at the interface the class consumes
them through: the JSON encode and decode steps (out of scope per the spec)
are represented by an injective encoder with a matching partial decoder,
and the transport and timer are represented as an event alphabet fed to
the step function.
-/

/-! ## JavaScript value model -/

mutual
/-- Model of a JavaScript runtime value as far as the class observes one:
null, undefined, booleans, numbers (integral model), strings (lists of code
units), Node buffers (byte lists), arrays and plain objects. -/
inductive JSVal : Type where
  | vnull : JSVal
  | vundefined : JSVal
  | vbool : Bool → JSVal
  | vnum : Int → JSVal
  | vstr : List Char → JSVal
  | vbuf : List Nat → JSVal
  | varr : JSList → JSVal
  | vobj : JSFields → JSVal

/-- Model of a JavaScript array payload. -/
inductive JSList : Type where
  | nil : JSList
  | cons : JSVal → JSList → JSList

/-- Model of the ordered field list of a JavaScript object. -/
inductive JSFields : Type where
  | fnil : JSFields
  | fcons : List Char → JSVal → JSFields → JSFields
end

/-- Number of elements of an array payload. -/
def lenL : JSList → Nat
  | .nil => 0
  | .cons _ r => lenL r + 1

/-- Number of fields of an object payload. -/
def lenF : JSFields → Nat
  | .fnil => 0
  | .fcons _ _ r => lenF r + 1

/-- JavaScript truthiness of a value: null, undefined, false, 0 and the
empty string are falsy, every other modelled value is truthy (arrays,
objects and buffers are always truthy objects). -/
def truthy : JSVal → Bool
  | .vnull => false
  | .vundefined => false
  | .vbool b => b
  | .vnum i => decide (i ≠ 0)
  | .vstr s => decide (s ≠ [])
  | .vbuf _ => true
  | .varr _ => true
  | .vobj _ => true

/-- Field lookup inside an object field list. -/
def findField : JSFields → List Char → JSVal
  | .fnil, _ => .vundefined
  | .fcons k v r, key => if k = key then v else findField r key

/-- Property access, as used on inbound messages: reading a named property
of a non-object yields undefined in the model (the class only ever reads
properties it then checks for truthiness, so the distinction between a
missing property and an undefined property is not observable to it). -/
def getField : JSVal → List Char → JSVal
  | .vobj fs, key => findField fs key
  | _, _ => .vundefined

/-- Strict equality test of a value against a string literal, as in the
comparisons of the message filter: true exactly when the value is a string
with those code units. -/
def strictEqStr : JSVal → List Char → Bool
  | .vstr t, s => decide (t = s)
  | _, _ => false

/-! ## Model of the external JSON codec

The spec places the JSON encode and decode steps out of scope and the class
relies only on their interface: encoding yields a string, decoding inverts
the encoding on JSON safe values and fails on malformed text.  The codec is
therefore modelled as an injective tagged encoding from values to code unit
lists with a fuelled partial decoder.  Buffers and undefined do not round
trip through real JSON, so the theorems restrict round trip statements to
plain values. -/

/-- Unary encoding of a natural number, closed by a separator unit. -/
def encNat : Nat → List Char
  | 0 => [';']
  | n + 1 => '1' :: encNat n

/-- Decoder for the unary natural number encoding. -/
def decNat : List Char → Option (Nat × List Char)
  | ';' :: r => some (0, r)
  | '1' :: r =>
    match decNat r with
    | some (n, r2) => some (n + 1, r2)
    | none => none
  | _ => none

/-- Sign and magnitude encoding of an integer. -/
def encInt : Int → List Char
  | Int.ofNat n => '+' :: encNat n
  | Int.negSucc n => '-' :: encNat n

/-- Decoder for the integer encoding. -/
def decInt : List Char → Option (Int × List Char)
  | '+' :: r =>
    match decNat r with
    | some (n, r2) => some (Int.ofNat n, r2)
    | none => none
  | '-' :: r =>
    match decNat r with
    | some (n, r2) => some (Int.negSucc n, r2)
    | none => none
  | _ => none

/-- Encoding of a byte list, one unary number per byte. -/
def encBytes : List Nat → List Char
  | [] => []
  | b :: r => encNat b ++ encBytes r

/-- Decoder reading a known count of unary numbers. -/
def decBytes : Nat → List Char → Option (List Nat × List Char)
  | 0, cs => some ([], cs)
  | n + 1, cs =>
    match decNat cs with
    | some (b, r) =>
      match decBytes n r with
      | some (bs, r2) => some (b :: bs, r2)
      | none => none
    | none => none

/-- Decoder for a length prefixed code unit block. -/
def decChars (cs : List Char) : Option (List Char × List Char) :=
  match decNat cs with
  | some (n, r) => if n ≤ r.length then some (r.take n, r.drop n) else none
  | none => none

mutual
/-- Tagged encoding of a value. -/
def encV : JSVal → List Char
  | .vnull => ['n']
  | .vundefined => ['u']
  | .vbool true => ['t']
  | .vbool false => ['f']
  | .vnum i => 'i' :: encInt i
  | .vstr s => 's' :: (encNat s.length ++ s)
  | .vbuf bs => 'b' :: (encNat bs.length ++ encBytes bs)
  | .varr xs => 'a' :: (encNat (lenL xs) ++ encL xs)
  | .vobj fs => 'o' :: (encNat (lenF fs) ++ encF fs)

/-- Encoding of the elements of an array payload. -/
def encL : JSList → List Char
  | .nil => []
  | .cons v r => encV v ++ encL r

/-- Encoding of the fields of an object payload. -/
def encF : JSFields → List Char
  | .fnil => []
  | .fcons k v r => (encNat k.length ++ k) ++ (encV v ++ encF r)
end

mutual
/-- Fuelled decoder for one encoded value. -/
def decV : Nat → List Char → Option (JSVal × List Char)
  | 0, _ => none
  | _ + 1, [] => none
  | f + 1, c :: r =>
    match c with
    | 'n' => some (.vnull, r)
    | 'u' => some (.vundefined, r)
    | 't' => some (.vbool true, r)
    | 'f' => some (.vbool false, r)
    | 'i' =>
      match decInt r with
      | some (i, r2) => some (.vnum i, r2)
      | none => none
    | 's' =>
      match decChars r with
      | some (s, r2) => some (.vstr s, r2)
      | none => none
    | 'b' =>
      match decNat r with
      | some (n, r2) =>
        match decBytes n r2 with
        | some (bs, r3) => some (.vbuf bs, r3)
        | none => none
      | none => none
    | 'a' =>
      match decNat r with
      | some (n, r2) =>
        match decL f n r2 with
        | some (xs, r3) => some (.varr xs, r3)
        | none => none
      | none => none
    | 'o' =>
      match decNat r with
      | some (n, r2) =>
        match decF f n r2 with
        | some (fs, r3) => some (.vobj fs, r3)
        | none => none
      | none => none
    | _ => none
termination_by f _ => (f, 0)

/-- Fuelled decoder for a known count of encoded array elements. -/
def decL : Nat → Nat → List Char → Option (JSList × List Char)
  | _, 0, cs => some (.nil, cs)
  | f, n + 1, cs =>
    match decV f cs with
    | some (v, r) =>
      match decL f n r with
      | some (xs, r2) => some (.cons v xs, r2)
      | none => none
    | none => none
termination_by f n _ => (f, n + 1)

/-- Fuelled decoder for a known count of encoded object fields. -/
def decF : Nat → Nat → List Char → Option (JSFields × List Char)
  | _, 0, cs => some (.fnil, cs)
  | f, n + 1, cs =>
    match decChars cs with
    | some (k, r) =>
      match decV f r with
      | some (v, r2) =>
        match decF f n r2 with
        | some (fs, r3) => some (.fcons k v fs, r3)
        | none => none
      | none => none
    | none => none
termination_by f n _ => (f, n + 1)
end

mutual
/-- Node count of a value, the fuel bound of the decoder. -/
def sizeV : JSVal → Nat
  | .varr xs => sizeL xs + 1
  | .vobj fs => sizeF fs + 1
  | _ => 1

/-- Node count of an array payload. -/
def sizeL : JSList → Nat
  | .nil => 0
  | .cons v r => sizeV v + sizeL r

/-- Node count of an object payload. -/
def sizeF : JSFields → Nat
  | .fnil => 0
  | .fcons _ v r => sizeV v + sizeF r
end

/-- Model of the external JSON stringify step: the injective encoding of
the value as a code unit list. -/
def jsonStringify (v : JSVal) : List Char := encV v

/-- Model of the external JSON decode step: decoding succeeds only on a
string whose code units fully decode under the tagged encoding; every
other input is malformed and yields none (a thrown decode error at the
interface). -/
def jsonParse : JSVal → Option JSVal
  | .vstr s =>
    match decV (s.length + 1) s with
    | some (v, []) => some v
    | _ => none
  | _ => none

mutual
/-- Plain (JSON safe) values: no buffers and no undefined anywhere.  Real
JSON does not round trip buffers or undefined, so round trip statements
are restricted to plain values. -/
def plainV : JSVal → Bool
  | .vnull => true
  | .vundefined => false
  | .vbool _ => true
  | .vnum _ => true
  | .vstr _ => true
  | .vbuf _ => false
  | .varr xs => plainL xs
  | .vobj fs => plainF fs

/-- Plainness of every element of an array payload. -/
def plainL : JSList → Bool
  | .nil => true
  | .cons v r => plainV v && plainL r

/-- Plainness of every field of an object payload. -/
def plainF : JSFields → Bool
  | .fnil => true
  | .fcons _ v r => plainV v && plainF r
end

/-! ## Default message codec (lines 416-434) -/

/-- Test used by the serializer branch for strings. -/
def isJsString : JSVal → Bool
  | .vstr _ => true
  | _ => false

/-- Test used by the serializer branch for Node buffers. -/
def isJsBuffer : JSVal → Bool
  | .vbuf _ => true
  | _ => false

/-- Transcription of the private serializer (lines 432-434): a string or a
buffer passes through unchanged, every other value is JSON encoded. -/
def _serializer (data : JSVal) : JSVal :=
  if isJsString data || isJsBuffer data then data
  else .vstr (jsonStringify data)

/-- Transcription of the private deserializer (lines 416-422): attempt a
JSON decode of the message payload, and on decode failure return the raw
payload unchanged (the try catch makes the function total). -/
def _deserializer (edata : JSVal) : JSVal :=
  match jsonParse edata with
  | some v => v
  | none => edata

/-! ## Message normalization and filtering (lines 317-333) -/

/-- Code units of the property name type. -/
def typeK : List Char := ['t', 'y', 'p', 'e']

/-- Code units of the property name utf8Data. -/
def utf8DataK : List Char := ['u', 't', 'f', '8', 'D', 'a', 't', 'a']

/-- Code units of the envelope tag utf8. -/
def utf8S : List Char := ['u', 't', 'f', '8']

/-- Code units of the property name event. -/
def eventK : List Char := ['e', 'v', 'e', 'n', 't']

/-- Code units of the property name data. -/
def dataK : List Char := ['d', 'a', 't', 'a']

/-- Code units of the reserved event name error. -/
def errorS : List Char := ['e', 'r', 'r', 'o', 'r']

/-- Code units of the reserved event name close. -/
def closeS : List Char := ['c', 'l', 'o', 's', 'e']

/-- Transcription of the map step of the message pipeline (lines 320-324):
a message carrying a truthy type property strictly equal to utf8 and a
truthy utf8Data property is replaced by that utf8Data value, every other
message passes through unchanged. -/
def normalizeUtf8 (message : JSVal) : JSVal :=
  if truthy (getField message typeK)
      && strictEqStr (getField message typeK) utf8S
      && truthy (getField message utf8DataK) then
    getField message utf8DataK
  else message

/-- Transcription of the filter step of the message pipeline
(lines 325-331): the normalized message must carry a truthy event property
that is not the string error, not the string close, and is strictly equal
to the requested event name, and a truthy data property. -/
def messageFilter (event : List Char) (message : JSVal) : Bool :=
  truthy (getField message eventK)
    && !(strictEqStr (getField message eventK) errorS)
    && !(strictEqStr (getField message eventK) closeS)
    && strictEqStr (getField message eventK) event
    && truthy (getField message dataK)

/-- Value emitted by the private message observable for one inbound
message, if any: the normalized message when it passes the filter. -/
def messageStreamEmit (event : List Char) (message : JSVal) : Option JSVal :=
  let n := normalizeUtf8 message
  if messageFilter event n then some n else none

/-- Value handed to the callback of on, and emitted by the observable
variant of on, for one inbound message (lines 198-215 and 247-252): the
data projection of the filtered normalized message. -/
def onDelivered (event : List Char) (message : JSVal) : Option JSVal :=
  (messageStreamEmit event message).map (fun m => getField m dataK)

/-! ## Channel configuration (lines 13-29 and 75-116) -/

/-- Model of the configuration record fields the reconnection logic reads.
Fields absent from a configuration are none. -/
structure RxConfig where
  url : List Char
  reconnectInterval : Option Int
  reconnectAttempts : Option Int

/-- Constructor argument: either a bare address string or a configuration
record. -/
inductive UrlOrConfig where
  | urlOnly : List Char → UrlOrConfig
  | config : RxConfig → UrlOrConfig

/-- Value of the reconnectInterval property read off the constructor
argument; reading the property of a bare string yields undefined. -/
def cfgReconnectInterval : UrlOrConfig → Option Int
  | .urlOnly _ => none
  | .config c => c.reconnectInterval

/-- Value of the reconnectAttempts property read off the constructor
argument; reading the property of a bare string yields undefined. -/
def cfgReconnectAttempts : UrlOrConfig → Option Int
  | .urlOnly _ => none
  | .config c => c.reconnectAttempts

/-- Transcription of lines 75-80: the interval member is the configured
value when that value is truthy (a number distinct from 0), and 5000
otherwise. -/
def resolvedReconnectInterval (u : UrlOrConfig) : Int :=
  match cfgReconnectInterval u with
  | some v => if v ≠ 0 then v else 5000
  | none => 5000

/-- Transcription of lines 82-87: the attempts member is the configured
value when that value is truthy (a number distinct from 0), and 10
otherwise. -/
def resolvedReconnectAttempts (u : UrlOrConfig) : Int :=
  match cfgReconnectAttempts u with
  | some v => if v ≠ 0 then v else 10
  | none => 10

/-! ## Reconnection state machine

State of one channel object.  Subscriptions and observables are modelled by
their liveness and by numeric identities; the interval observable of a
reconnection session and its subscription are created together and torn
down together in the source (lines 389-406 and 353-359), so one optional
identity stands for the pair.  The list liveSessions records every interval
subscription not yet unsubscribed; the source appends without unsubscribing
in _reconnect, so keeping the list explicit makes the single session
invariant a real statement about the guards rather than a typing accident. -/

/-- Terminal state of the event stream core (the Subject the class
extends). -/
inductive CoreTerm where
  | active : CoreTerm
  | errored : JSVal → CoreTerm
  | completed : CoreTerm

/-- State of one channel. -/
structure ClientState where
  socket : Option Nat
  socketSubActive : Bool
  nextSocket : Nat
  reconnObs : Option Nat
  reconnIdx : Nat
  liveSessions : List Nat
  nextSession : Nat
  core : CoreTerm
  coreLog : List JSVal
  statusClosed : Bool
  statusLog : List Bool
  lastSeen : Option Bool
  reconnectAttempts : Int

/-- Transcription of _cleanSocket (lines 340-346): unsubscribe the socket
subscription and clear the socket member. -/
def _cleanSocket (s : ClientState) : ClientState :=
  { s with socketSubActive := false, socket := none }

/-- Transcription of _cleanReconnection (lines 353-359): unsubscribe the
reconnection subscription and clear the reconnection observable member. -/
def _cleanReconnection (s : ClientState) : ClientState :=
  { s with
    liveSessions :=
      match s.reconnObs with
      | some i => s.liveSessions.filter (fun j => j != i)
      | none => s.liveSessions,
    reconnObs := none }

/-- Transcription of the socket creation part of _connect (lines 366-368):
a fresh socket subject is stored and subscribed. -/
def _connect (s : ClientState) : ClientState :=
  { s with
    socket := some s.nextSocket,
    nextSocket := s.nextSocket + 1,
    socketSubActive := true }

/-- Transcription of the session creation part of _reconnect
(lines 389-395): a fresh interval observable is stored and subscribed; note
the source overwrites the members without unsubscribing a previous session,
so the fresh identity is prepended to the live list. -/
def _reconnect (s : ClientState) : ClientState :=
  { s with
    reconnObs := some s.nextSession,
    liveSessions := s.nextSession :: s.liveSessions,
    nextSession := s.nextSession + 1,
    reconnIdx := 0 }

/-- Delivery of one value into the event stream core (line 370); a subject
that has terminated ignores further values. -/
def coreNext (v : JSVal) (s : ClientState) : ClientState :=
  match s.core with
  | .active => { s with coreLog := s.coreLog ++ [v] }
  | _ => s

/-- Error termination of the event stream core (line 378); a subject that
has terminated ignores further terminal events. -/
def coreError (err : JSVal) (s : ClientState) : ClientState :=
  match s.core with
  | .active => { s with core := .errored err }
  | _ => s

/-- Completion of the event stream core (line 401). -/
def coreComplete (s : ClientState) : ClientState :=
  match s.core with
  | .active => { s with core := .completed }
  | _ => s

/-- Completion of the connection status subject (line 402). -/
def statusComplete (s : ClientState) : ClientState :=
  { s with statusClosed := true }

/-- Emission of a boolean on the private connection status subject,
including the synchronous reaction of the constructor subscription of
lines 139-143: that subscription reads the deduplicated view of the
subject (lines 151-156), remembered in lastSeen, and starts a reconnection
session when it observes false while no reconnection observable exists.  A
completed subject delivers nothing. -/
def statusNext (b : Bool) (s : ClientState) : ClientState :=
  if s.statusClosed then s
  else
    let s1 := { s with statusLog := s.statusLog ++ [b] }
    if s1.lastSeen = some b then s1
    else
      let s2 := { s1 with lastSeen := some b }
      if s2.reconnObs = none ∧ b = false then _reconnect s2 else s2

/-- Transcription of the error callback of the socket subscription
(lines 372-380): with no socket member the reconnection data is cleaned and
a fresh session starts; with a socket member the error terminates the event
stream core. -/
def connectErrorHandler (err : JSVal) (s : ClientState) : ClientState :=
  match s.socket with
  | none => _reconnect (_cleanReconnection s)
  | some _ => coreError err s

/-- Transcription of one tick of the reconnection session (lines 390-405).
The takeWhile predicate admits the tick while the tick index is below the
attempts member and no socket member exists; an admitted tick runs
_connect, and the first refused tick completes the session, whose
completion callback cleans the reconnection data and, when no socket
member exists, completes the event stream core and then the connection
status subject. -/
def tickStep (s : ClientState) : ClientState :=
  match s.reconnObs with
  | none => s
  | some _ =>
    if (s.reconnIdx : Int) < s.reconnectAttempts ∧ s.socket = none then
      let s1 := _connect s
      { s1 with reconnIdx := s1.reconnIdx + 1 }
    else
      let s1 := _cleanReconnection s
      if s1.socket = none then statusComplete (coreComplete s1) else s1

/-- Event alphabet: the transport open and close notifications delivered to
the observers configured in lines 122-132, a message or an error delivered
through the socket subscription of lines 368-381, and a timer tick of the
reconnection interval. -/
inductive Ev where
  | openN : Ev
  | closeN : Ev
  | msg : JSVal → Ev
  | errN : JSVal → Ev
  | tick : Ev

/-- One reaction of the channel to an event.  The open observer emits true
on the status subject (lines 122-126); the close observer cleans the socket
and emits false (lines 127-132); messages and errors reach their callbacks
only through a live socket subscription. -/
def step (s : ClientState) (e : Ev) : ClientState :=
  match e with
  | .openN => statusNext true s
  | .closeN => statusNext false (_cleanSocket s)
  | .msg v => if s.socketSubActive then coreNext v s else s
  | .errN err => if s.socketSubActive then connectErrorHandler err s else s
  | .tick => tickStep s

/-- Transcription of the constructor (lines 69-144): members initialized,
then an immediate connect; the status subscription of lines 139-143 is
installed before any event can be delivered. -/
def initClient (u : UrlOrConfig) : ClientState :=
  _connect
    { socket := none
      socketSubActive := false
      nextSocket := 0
      reconnObs := none
      reconnIdx := 0
      liveSessions := []
      nextSession := 0
      core := .active
      coreLog := []
      statusClosed := false
      statusLog := []
      lastSeen := none
      reconnectAttempts := resolvedReconnectAttempts u }

/-- Reaction of the channel to a list of events, oldest first. -/
def run (s : ClientState) (evs : List Ev) : ClientState :=
  evs.foldl step s

/-- Model of a thrown JavaScript runtime error. -/
inductive JsErr where
  | typeError : JsErr

/-- Transcription of send (lines 163-165): the call reads the next method
of the socket member, so with no socket member it throws a TypeError; with
a live socket the serialized payload is handed to the transport. -/
def send (s : ClientState) (data : JSVal) : Except JsErr (Option JSVal) :=
  match s.socket with
  | none => .error .typeError
  | some _ => .ok (some (_serializer data))

/-! ## Rx view semantics for derived streams -/

/-- Terminal state of an rx stream as seen by one subscriber. -/
inductive RxTerminal where
  | live : RxTerminal
  | completedT : RxTerminal
  | erroredT : JSVal → RxTerminal

/-- Terminal state of the event stream core as an rx terminal. -/
def coreTerminal (s : ClientState) : RxTerminal :=
  match s.core with
  | .active => .live
  | .completed => .completedT
  | .errored e => .erroredT e

/-- Semantics of the pipe of lines 259-264 on a stream outcome: catchError
switches, at the error of the source, to the observable produced by of,
which emits the error object as one normal item and then completes. -/
def catchErrorOf : List JSVal → RxTerminal → List JSVal × RxTerminal
  | vs, .erroredT e => (vs ++ [e], .completedT)
  | vs, t => (vs, t)

/-- Items and terminal delivered to a subscriber of the error re-exposing
stream, for a subscriber of the core present from construction. -/
def onErrorDelivered (s : ClientState) : List JSVal × RxTerminal :=
  catchErrorOf s.coreLog (coreTerminal s)

/-- Per subscriber state of distinctUntilChanged: delivery of the raw
emission list given the last value already delivered to this subscriber. -/
def dedupFrom : Option Bool → List Bool → List Bool
  | _, [] => []
  | last, b :: rest =>
    if last = some b then dedupFrom last rest
    else b :: dedupFrom (some b) rest

/-! ## Concrete fixtures used by witnesses and counterexamples -/

/-- Bare address construction argument. -/
def u0 : UrlOrConfig := .urlOnly ['w', 's']

/-- Model of a transport error object. -/
def boomV : JSVal := .vstr ['b', 'o', 'o', 'm']

/-- Code units of the sample event name chat. -/
def chatS : List Char := ['c', 'h', 'a', 't']

/-- Code units of the sample payload hi. -/
def hiS : List Char := ['h', 'i']

/-- Sample inner message with event chat and data hi. -/
def chatMsg : JSVal :=
  .vobj (.fcons eventK (.vstr chatS) (.fcons dataK (.vstr hiS) .fnil))

/-- Sample utf8 envelope around the chat message. -/
def chatEnvelope : JSVal :=
  .vobj (.fcons typeK (.vstr utf8S) (.fcons utf8DataK chatMsg .fnil))

/-- Sample plain object with a nested object field, used for the codec
round trip witness. -/
def sampleFields : JSFields :=
  .fcons eventK (.vstr chatS)
    (.fcons dataK (.vobj (.fcons ['n'] (.vnum 3) .fnil)) .fnil)

/-- Event list of one full failed reconnection scenario: the initial
transport closes, then each interval tick attempts a connect whose
transport closes again before the next tick, and one further tick makes the
takeWhile predicate refuse, ending the session. -/
def cycleEvents (k : Nat) : List Ev :=
  (List.replicate k [Ev.tick, Ev.closeN]).flatten

/-- Full failure trace: initial close, then the given number of failing
tick and close rounds, then the tick that ends the session. -/
def failEvents (n : Nat) : List Ev :=
  Ev.closeN :: (cycleEvents n ++ [Ev.tick])

/-- Channel state after the initial close and a number of failed
reconnection rounds: no socket, one session with that many consumed ticks,
core still active. -/
def midState (u : UrlOrConfig) (k : Nat) : ClientState :=
  { socket := none
    socketSubActive := false
    nextSocket := k + 1
    reconnObs := some 0
    reconnIdx := k
    liveSessions := [0]
    nextSession := 1
    core := .active
    coreLog := []
    statusClosed := false
    statusLog := List.replicate (k + 1) false
    lastSeen := some false
    reconnectAttempts := resolvedReconnectAttempts u }

/-- Channel state after attempt exhaustion: session destroyed, core and
status subject completed, no socket. -/
def exhaustedState (u : UrlOrConfig) : ClientState :=
  { socket := none
    socketSubActive := false
    nextSocket := (resolvedReconnectAttempts u).toNat + 1
    reconnObs := none
    reconnIdx := (resolvedReconnectAttempts u).toNat
    liveSessions := []
    nextSession := 1
    core := .completed
    coreLog := []
    statusClosed := true
    statusLog := List.replicate ((resolvedReconnectAttempts u).toNat + 1) false
    lastSeen := some false
    reconnectAttempts := resolvedReconnectAttempts u }

/-- Session bookkeeping a state should satisfy: the live interval
subscriptions are exactly the tracked one. -/
def sessionsOf : Option Nat → List Nat
  | none => []
  | some i => [i]

/-- Configuration record with an absent interval and an explicit zero
attempts value. -/
def cfg0 : RxConfig :=
  { url := ['w'], reconnectInterval := none, reconnectAttempts := some 0 }

/-- Configuration record with one reconnect attempt, used to reach an
exhaustion tick quickly. -/
def cfg1 : RxConfig :=
  { url := ['w'], reconnectInterval := some 1000, reconnectAttempts := some 1 }

/-! ## Lemmas about the JSON codec model -/

/-- Decoding inverts the unary natural number encoding. -/
theorem decNat_enc (n : Nat) (r : List Char) : decNat (encNat n ++ r) = some (n, r) := by
  induction n with
  | zero => simp [encNat, decNat]
  | succ k ih => simp [encNat, decNat, ih]

/-- Decoding inverts the integer encoding. -/
theorem decInt_enc (i : Int) (r : List Char) : decInt (encInt i ++ r) = some (i, r) := by
  cases i with
  | ofNat n => simp [encInt, decInt, decNat_enc]
  | negSucc n => simp [encInt, decInt, decNat_enc]

/-- Decoding inverts the byte list encoding. -/
theorem decBytes_enc (bs : List Nat) (r : List Char) :
    decBytes bs.length (encBytes bs ++ r) = some (bs, r) := by
  induction bs generalizing r with
  | nil => simp [encBytes, decBytes]
  | cons b t ih => simp [encBytes, decBytes, List.append_assoc, decNat_enc, ih]

/-- Decoding inverts the length prefixed code unit block encoding. -/
theorem decChars_enc (s r : List Char) :
    decChars (encNat s.length ++ (s ++ r)) = some (s, r) := by
  simp only [decChars, decNat_enc]
  rw [if_pos (by simp), List.take_left, List.drop_left]

/-- Every value has at least one node. -/
theorem sizeV_pos (v : JSVal) : 1 ≤ sizeV v := by
  cases v <;> simp [sizeV]

/-- Length of the unary encoding. -/
theorem encNat_length (n : Nat) : (encNat n).length = n + 1 := by
  induction n with
  | zero => simp [encNat]
  | succ k ih => simp [encNat, ih]

mutual
/-- The encoding of a value is at least as long as its node count. -/
theorem sizeV_le_encV : (v : JSVal) → sizeV v ≤ (encV v).length
  | .vnull => by simp [sizeV, encV]
  | .vundefined => by simp [sizeV, encV]
  | .vbool true => by simp [sizeV, encV]
  | .vbool false => by simp [sizeV, encV]
  | .vnum i => by simp [sizeV, encV]
  | .vstr s => by simp [sizeV, encV]
  | .vbuf bs => by simp [sizeV, encV]
  | .varr xs => by
    have h := sizeL_le_encL xs
    simp [sizeV, encV, encNat_length]
    omega
  | .vobj fs => by
    have h := sizeF_le_encF fs
    simp [sizeV, encV, encNat_length]
    omega

/-- The encoding of an array payload is at least as long as its node
count. -/
theorem sizeL_le_encL : (xs : JSList) → sizeL xs ≤ (encL xs).length
  | .nil => by simp [sizeL, encL]
  | .cons v t => by
    have hv := sizeV_le_encV v
    have ht := sizeL_le_encL t
    simp [sizeL, encL]
    omega

/-- The encoding of an object payload is at least as long as its node
count. -/
theorem sizeF_le_encF : (fs : JSFields) → sizeF fs ≤ (encF fs).length
  | .fnil => by simp [sizeF, encF]
  | .fcons k v t => by
    have hv := sizeV_le_encV v
    have ht := sizeF_le_encF t
    simp [sizeF, encF]
    omega
end

mutual
/-- The fuelled decoder inverts the value encoding whenever the fuel is at
least the node count. -/
theorem decV_enc : (v : JSVal) → (f : Nat) → (r : List Char) → sizeV v ≤ f →
    decV f (encV v ++ r) = some (v, r)
  | v, 0, _, h => absurd h (by have := sizeV_pos v; omega)
  | .vnull, f + 1, r, _ => by simp [encV, decV]
  | .vundefined, f + 1, r, _ => by simp [encV, decV]
  | .vbool true, f + 1, r, _ => by simp [encV, decV]
  | .vbool false, f + 1, r, _ => by simp [encV, decV]
  | .vnum i, f + 1, r, _ => by simp [encV, decV, decInt_enc]
  | .vstr s, f + 1, r, _ => by simp [encV, decV, List.append_assoc, decChars_enc]
  | .vbuf bs, f + 1, r, _ => by simp [encV, decV, List.append_assoc, decNat_enc, decBytes_enc]
  | .varr xs, f + 1, r, h => by
    have hx : sizeL xs ≤ f := by simp [sizeV] at h; omega
    simp [encV, decV, List.append_assoc, decNat_enc, decL_enc xs f r hx]
  | .vobj fs, f + 1, r, h => by
    have hf : sizeF fs ≤ f := by simp [sizeV] at h; omega
    simp [encV, decV, List.append_assoc, decNat_enc, decF_enc fs f r hf]

/-- The fuelled decoder inverts the array payload encoding. -/
theorem decL_enc : (xs : JSList) → (f : Nat) → (r : List Char) → sizeL xs ≤ f →
    decL f (lenL xs) (encL xs ++ r) = some (xs, r)
  | .nil, f, r, _ => by simp [encL, lenL, decL]
  | .cons v t, f, r, h => by
    have hv : sizeV v ≤ f := by simp [sizeL] at h; omega
    have ht : sizeL t ≤ f := by simp [sizeL] at h; omega
    simp [encL, lenL, decL, List.append_assoc, decV_enc v f (encL t ++ r) hv,
      decL_enc t f r ht]

/-- The fuelled decoder inverts the object payload encoding. -/
theorem decF_enc : (fs : JSFields) → (f : Nat) → (r : List Char) → sizeF fs ≤ f →
    decF f (lenF fs) (encF fs ++ r) = some (fs, r)
  | .fnil, f, r, _ => by simp [encF, lenF, decF]
  | .fcons k v t, f, r, h => by
    have hv : sizeV v ≤ f := by simp [sizeF] at h; omega
    have ht : sizeF t ≤ f := by simp [sizeF] at h; omega
    simp [encF, lenF, decF, List.append_assoc, decChars_enc,
      decV_enc v f (encF t ++ r) hv, decF_enc t f r ht]
end

/-- Round trip of the modelled JSON codec: parsing the stringified form of
any modelled value recovers the value. -/
theorem jsonParse_stringify (v : JSVal) :
    jsonParse (JSVal.vstr (jsonStringify v)) = some v := by
  have h1 : decV ((encV v).length + 1) (encV v) = some (v, []) := by
    have h2 := decV_enc v ((encV v).length + 1) []
      (by have := sizeV_le_encV v; omega)
    simpa using h2
  simp [jsonParse, jsonStringify, h1]

/-! ## Helper lemmas about the pipeline primitives -/

/-- Strict equality against a string literal holds only for that string. -/
theorem strictEqStr_eq_true {v : JSVal} {s : List Char}
    (h : strictEqStr v s = true) : v = JSVal.vstr s := by
  cases v <;> simp_all [strictEqStr]

/-- A truthy value is neither undefined nor the empty string. -/
theorem truthy_ne_undef_empty {v : JSVal} (h : truthy v = true) :
    v ≠ JSVal.vundefined ∧ v ≠ JSVal.vstr [] := by
  constructor <;> intro he <;> subst he <;> simp [truthy] at h

/-! ## Claim C4 -/

/-- Claim C4: for every event name and inbound message, the callback of on
and the emission of the observable variant of on fire only when the
normalized message carries an event field equal to the requested name,
that name is neither error nor close, and the message carries a non empty
data field; and the delivered value is exactly the data field of the
normalized message, never the whole message. -/
theorem on_filters_and_delivers_data :
    ∀ event message d, onDelivered event message = some d →
      getField (normalizeUtf8 message) eventK = JSVal.vstr event ∧
      event ≠ errorS ∧ event ≠ closeS ∧
      getField (normalizeUtf8 message) dataK ≠ JSVal.vundefined ∧
      getField (normalizeUtf8 message) dataK ≠ JSVal.vstr [] ∧
      d = getField (normalizeUtf8 message) dataK := by
  intro event message d h
  have hopt : messageFilter event (normalizeUtf8 message) = true ∧
      d = getField (normalizeUtf8 message) dataK := by
    by_cases hf : messageFilter event (normalizeUtf8 message)
    · refine ⟨hf, ?_⟩
      simp [onDelivered, messageStreamEmit, hf] at h
      exact h.symm
    · simp [onDelivered, messageStreamEmit, hf] at h
  obtain ⟨hf, hd⟩ := hopt
  simp only [messageFilter, Bool.and_eq_true, Bool.not_eq_true'] at hf
  obtain ⟨⟨⟨⟨hTruthyEv, hNotErr⟩, hNotClose⟩, hEq⟩, hTruthyData⟩ := hf
  have hev := strictEqStr_eq_true hEq
  have hdata := truthy_ne_undef_empty hTruthyData
  refine ⟨hev, ?_, ?_, hdata.1, hdata.2, hd⟩
  · intro he
    subst he
    rw [hev] at hNotErr
    simp [strictEqStr] at hNotErr
  · intro he
    subst he
    rw [hev] at hNotClose
    simp [strictEqStr] at hNotClose

/-- Claim C4 witness: the chat envelope fixture passes the filter, chat is
not a reserved name, and the delivered value is the data field. -/
theorem on_filters_and_delivers_data_witness :
    getField (normalizeUtf8 chatEnvelope) eventK = JSVal.vstr chatS ∧
    chatS ≠ errorS ∧ chatS ≠ closeS ∧
    getField (normalizeUtf8 chatEnvelope) dataK ≠ JSVal.vundefined ∧
    getField (normalizeUtf8 chatEnvelope) dataK ≠ JSVal.vstr [] ∧
    JSVal.vstr hiS = getField (normalizeUtf8 chatEnvelope) dataK :=
  on_filters_and_delivers_data chatS chatEnvelope (JSVal.vstr hiS) (by rfl)

/-! ## Claim C5 -/

/-- Claim C5: the serializer passes every string and every raw buffer
through unchanged, JSON encodes every other value, and a plain object
round trips through the deserializer to a deep equal object. -/
theorem serializer_passthrough_and_roundtrip :
    (∀ s, _serializer (JSVal.vstr s) = JSVal.vstr s) ∧
    (∀ bs, _serializer (JSVal.vbuf bs) = JSVal.vbuf bs) ∧
    (∀ v, isJsString v = false → isJsBuffer v = false →
      _serializer v = JSVal.vstr (jsonStringify v)) ∧
    (∀ fs, plainF fs = true →
      _deserializer (_serializer (JSVal.vobj fs)) = JSVal.vobj fs) := by
  refine ⟨fun s => by simp [_serializer, isJsString],
    fun bs => by simp [_serializer, isJsBuffer],
    fun v h1 h2 => by simp [_serializer, h1, h2],
    fun fs _ => by
      simp [_serializer, isJsString, isJsBuffer, _deserializer,
        jsonParse_stringify]⟩

/-- Claim C5 witness: the nested sample object is plain and round trips
through serialize and deserialize unchanged. -/
theorem serializer_passthrough_and_roundtrip_witness :
    plainF sampleFields = true ∧
    _deserializer (_serializer (JSVal.vobj sampleFields))
      = JSVal.vobj sampleFields :=
  ⟨by rfl,
    serializer_passthrough_and_roundtrip.2.2.2 sampleFields (by rfl)⟩

/-! ## Claim C6 -/

/-- Claim C6: the deserializer is total (the try catch of lines 417-421
never lets a decode error escape): on every input it either returns the
decoded value, or, whenever decoding fails, returns the original raw
payload unchanged. -/
theorem deserializer_total_fallback :
    ∀ raw, (∃ v, jsonParse raw = some v ∧ _deserializer raw = v) ∨
      (jsonParse raw = none ∧ _deserializer raw = raw) := by
  intro raw
  cases h : jsonParse raw with
  | some v => exact Or.inl ⟨v, rfl, by simp [_deserializer, h]⟩
  | none => exact Or.inr ⟨rfl, by simp [_deserializer, h]⟩

/-! ## Claim C7 -/

/-- Claim C7: a message wrapped in a utf8 envelope is transparently
unwrapped before event filtering, and in particular the chat envelope
fixture makes the chat stream emit exactly the string hi. -/
theorem utf8_envelope_unwrap :
    (∀ m, truthy (getField m typeK) = true →
      getField m typeK = JSVal.vstr utf8S →
      truthy (getField m utf8DataK) = true →
      normalizeUtf8 m = getField m utf8DataK) ∧
    onDelivered chatS chatEnvelope = some (JSVal.vstr hiS) := by
  constructor
  · intro m h1 h2 h3
    have hcond : (truthy (getField m typeK)
        && strictEqStr (getField m typeK) utf8S
        && truthy (getField m utf8DataK)) = true := by
      rw [h1, h2, h3]
      simp [strictEqStr]
    simp [normalizeUtf8, hcond]
  · rfl

/-- Claim C7 witness: the unwrap clause applied to the concrete chat
envelope. -/
theorem utf8_envelope_unwrap_witness :
    normalizeUtf8 chatEnvelope = getField chatEnvelope utf8DataK :=
  utf8_envelope_unwrap.1 chatEnvelope (by rfl) (by rfl) (by rfl)

/-! ## Claim C10 -/

/-- Claim C10: an absent or zero (falsy) reconnectInterval resolves to the
default 5000 and an absent or zero (falsy) reconnectAttempts resolves to
the default 10; in particular an explicit reconnectAttempts of 0 yields
ten retries, not zero. -/
theorem config_defaults :
    (∀ u, cfgReconnectInterval u = none ∨ cfgReconnectInterval u = some 0 →
      resolvedReconnectInterval u = 5000) ∧
    (∀ u, cfgReconnectAttempts u = none ∨ cfgReconnectAttempts u = some 0 →
      resolvedReconnectAttempts u = 10) := by
  constructor <;> intro u h <;> rcases h with h | h <;>
    simp [resolvedReconnectInterval, resolvedReconnectAttempts, h]

/-- Claim C10 witness: the configuration with an explicit zero attempts
value and an absent interval resolves to the defaults. -/
theorem config_defaults_witness :
    resolvedReconnectInterval (UrlOrConfig.config cfg0) = 5000 ∧
    resolvedReconnectAttempts (UrlOrConfig.config cfg0) = 10 :=
  ⟨config_defaults.1 (UrlOrConfig.config cfg0) (Or.inl rfl),
    config_defaults.2 (UrlOrConfig.config cfg0) (Or.inr rfl)⟩

/-! ## Helper lemmas about runs and the state machine -/

/-- Unfolding of run on a cons. -/
theorem run_cons (s : ClientState) (e : Ev) (t : List Ev) :
    run s (e :: t) = run (step s e) t := rfl

/-- Unfolding of run on an append. -/
theorem run_append (s : ClientState) (l1 l2 : List Ev) :
    run s (l1 ++ l2) = run (run s l1) l2 := by
  simp [run, List.foldl_append]

/-- The status emission helper never touches the session fields except
through the guarded reconnect, never touches the core, and never closes
the status subject. -/
theorem statusNext_frame (b : Bool) (s : ClientState) :
    (statusNext b s).statusClosed = s.statusClosed ∧
    (statusNext b s).core = s.core ∧
    (statusNext b s).coreLog = s.coreLog ∧
    (statusNext b s).socket = s.socket ∧
    (statusNext b s).socketSubActive = s.socketSubActive := by
  simp only [statusNext]
  split_ifs <;> simp [_reconnect]

/-- With a session already tracked, the status emission helper leaves all
reconnection bookkeeping unchanged: starting a session while one is active
is a no-op. -/
theorem statusNext_session_noop (b : Bool) (s : ClientState) (i : Nat)
    (h : s.reconnObs = some i) :
    (statusNext b s).reconnObs = s.reconnObs ∧
    (statusNext b s).liveSessions = s.liveSessions ∧
    (statusNext b s).reconnIdx = s.reconnIdx := by
  simp only [statusNext]
  split_ifs with h1 h2 h3
  · exact ⟨rfl, rfl, rfl⟩
  · exact ⟨rfl, rfl, rfl⟩
  · rw [h] at h3
    simp at h3
  · exact ⟨rfl, rfl, rfl⟩

/-- Preservation of the session bookkeeping invariant by the status
emission helper. -/
theorem statusNext_sessions (b : Bool) (s : ClientState)
    (h : s.liveSessions = sessionsOf s.reconnObs) :
    (statusNext b s).liveSessions = sessionsOf (statusNext b s).reconnObs := by
  simp only [statusNext]
  split_ifs with h1 h2 h3
  · exact h
  · exact h
  · obtain ⟨hro, _⟩ := h3
    rw [hro] at h
    simp [_reconnect, sessionsOf, h]
  · exact h

/-- Core completion changes only the core field. -/
theorem coreComplete_frame (s : ClientState) :
    (coreComplete s).liveSessions = s.liveSessions ∧
    (coreComplete s).reconnObs = s.reconnObs ∧
    (coreComplete s).socket = s.socket ∧
    (coreComplete s).statusLog = s.statusLog ∧
    (coreComplete s).reconnIdx = s.reconnIdx ∧
    (coreComplete s).statusClosed = s.statusClosed := by
  cases hc : s.core <;> simp [coreComplete, hc]

/-- Preservation of the session bookkeeping invariant by one step. -/
theorem step_sessions (s : ClientState) (e : Ev)
    (h : s.liveSessions = sessionsOf s.reconnObs) :
    (step s e).liveSessions = sessionsOf (step s e).reconnObs := by
  cases e with
  | openN => exact statusNext_sessions true s h
  | closeN => exact statusNext_sessions false (_cleanSocket s) h
  | msg v =>
    simp only [step]
    split
    · simp only [coreNext]
      split <;> exact h
    · exact h
  | errN err =>
    simp only [step]
    split
    · simp only [connectErrorHandler]
      split
      · simp [_reconnect, _cleanReconnection, sessionsOf]
        cases hro : s.reconnObs with
        | none => rw [hro] at h; simpa [sessionsOf] using h
        | some i => rw [hro] at h; simp [sessionsOf] at h; simp [h]
      · simp only [coreError]
        split <;> exact h
    · exact h
  | tick =>
    show (tickStep s).liveSessions = sessionsOf (tickStep s).reconnObs
    cases hro : s.reconnObs with
    | none => simp [tickStep, hro, h]
    | some i =>
      rw [hro] at h
      simp only [sessionsOf] at h
      by_cases hc : (s.reconnIdx : Int) < s.reconnectAttempts ∧ s.socket = none
      · simp [tickStep, hro, hc, _connect, h, sessionsOf]
      · have h1 : (_cleanReconnection s).liveSessions = [] := by
          simp [_cleanReconnection, hro, h]
        have h2 : (_cleanReconnection s).reconnObs = none := by
          simp [_cleanReconnection]
        simp only [tickStep, hro]
        rw [if_neg hc]
        split
        · simp [statusComplete, (coreComplete_frame (_cleanReconnection s)).1,
            (coreComplete_frame (_cleanReconnection s)).2.1, h1, h2, sessionsOf]
        · simp [h1, h2, sessionsOf]

/-- Every reachable state keeps exactly the tracked interval subscription
alive. -/
theorem run_sessions (u : UrlOrConfig) (evs : List Ev) :
    (run (initClient u) evs).liveSessions
      = sessionsOf (run (initClient u) evs).reconnObs := by
  suffices h : ∀ s, s.liveSessions = sessionsOf s.reconnObs →
      (run s evs).liveSessions = sessionsOf (run s evs).reconnObs by
    exact h (initClient u) (by simp [initClient, _connect, sessionsOf])
  induction evs with
  | nil => intro s hs; exact hs
  | cons e t ih =>
    intro s hs
    rw [run_cons]
    exact ih (step s e) (step_sessions s e hs)

/-- Error termination never leaves the core active. -/
theorem coreError_ne_active (err : JSVal) (s : ClientState) :
    (coreError err s).core ≠ CoreTerm.active := by
  cases hc : s.core <;> simp [coreError, hc]

/-- Completion never leaves the core active. -/
theorem coreComplete_ne_active (s : ClientState) :
    (coreComplete s).core ≠ CoreTerm.active := by
  cases hc : s.core <;> simp [coreComplete, hc]

/-! ## Claim C2 -/

/-- Claim C2 counterexample: the claim says no further reconnect attempt is
ever made after a fatal error with a live transport, but the error path
terminates only the core and leaves the status subject open, so the close
notification of the failed transport still starts a reconnection session
whose first tick creates a fresh transport: after the trace error, close,
tick the core is terminated with the error and yet a session is live and a
new socket exists. -/
theorem reconnect_after_fatal_error_trace :
    (run (initClient u0) [Ev.errN boomV, Ev.closeN, Ev.tick]).core
      = CoreTerm.errored boomV ∧
    (run (initClient u0) [Ev.errN boomV, Ev.closeN, Ev.tick]).reconnObs
      = some 0 ∧
    (run (initClient u0) [Ev.errN boomV, Ev.closeN, Ev.tick]).socket
      = some 1 :=
  ⟨rfl, rfl, rfl⟩

/-- Claim C2 (amended): when the socket subscription error handler runs
with a transport handle present the event stream core terminates with that
error and the handler itself starts no reconnection; when it runs with no
transport handle it starts a fresh reconnection session and does not
terminate the core.  (A later close notification can still start a session
after a fatal error, because the status subject is not completed on the
error path; see the counterexample.) -/
theorem error_handler_fatal_and_race_behavior :
    (∀ s err i, s.socket = some i → s.core = CoreTerm.active →
      (connectErrorHandler err s).core = CoreTerm.errored err ∧
      (connectErrorHandler err s).reconnObs = s.reconnObs ∧
      (connectErrorHandler err s).liveSessions = s.liveSessions ∧
      (connectErrorHandler err s).socket = s.socket) ∧
    (∀ s err, s.socket = none →
      (connectErrorHandler err s).core = s.core ∧
      (connectErrorHandler err s).reconnObs = some s.nextSession ∧
      (connectErrorHandler err s).reconnIdx = 0) := by
  constructor
  · intro s err i hs hc
    simp [connectErrorHandler, hs, coreError, hc]
  · intro s err hs
    simp [connectErrorHandler, hs, _reconnect, _cleanReconnection]

/-- Claim C2 witness: the handler applied to the freshly constructed state
(live socket) and to the same state after a clean close (no socket). -/
theorem error_handler_fatal_and_race_behavior_witness :
    ((connectErrorHandler boomV (initClient u0)).core
        = CoreTerm.errored boomV ∧
      (connectErrorHandler boomV (initClient u0)).reconnObs
        = (initClient u0).reconnObs ∧
      (connectErrorHandler boomV (initClient u0)).liveSessions
        = (initClient u0).liveSessions ∧
      (connectErrorHandler boomV (initClient u0)).socket
        = (initClient u0).socket) ∧
    ((connectErrorHandler boomV (_cleanSocket (initClient u0))).core
        = (_cleanSocket (initClient u0)).core ∧
      (connectErrorHandler boomV (_cleanSocket (initClient u0))).reconnObs
        = some (_cleanSocket (initClient u0)).nextSession ∧
      (connectErrorHandler boomV (_cleanSocket (initClient u0))).reconnIdx
        = 0) :=
  ⟨error_handler_fatal_and_race_behavior.1 (initClient u0) boomV 0 rfl rfl,
    error_handler_fatal_and_race_behavior.2 (_cleanSocket (initClient u0))
      boomV rfl⟩

/-! ## Claim C8 -/

/-- Claim C8: at most one reconnection session is live in every reachable
state; an emission of false on the status subject while a session is
tracked leaves the reconnection bookkeeping untouched (starting a session
while one is active is a no-op); and a session tick destroys the session
when a transport handle exists (successful reconnect) or when the tick
index has reached the attempts bound (exhaustion). -/
theorem single_reconnection_session :
    (∀ u evs, (run (initClient u) evs).liveSessions.length ≤ 1) ∧
    (∀ s i, s.reconnObs = some i →
      (statusNext false s).reconnObs = s.reconnObs ∧
      (statusNext false s).liveSessions = s.liveSessions ∧
      (statusNext false s).reconnIdx = s.reconnIdx) ∧
    (∀ s i j, s.reconnObs = some i → s.socket = some j →
      (step s Ev.tick).reconnObs = none) ∧
    (∀ s i, s.reconnObs = some i →
      ¬ ((s.reconnIdx : Int) < s.reconnectAttempts) →
      (step s Ev.tick).reconnObs = none) := by
  refine ⟨?_, ?_, ?_, ?_⟩
  · intro u evs
    rw [run_sessions u evs]
    cases (run (initClient u) evs).reconnObs <;> simp [sessionsOf]
  · intro s i h
    exact statusNext_session_noop false s i h
  · intro s i j hro hsock
    have hc : ¬ ((s.reconnIdx : Int) < s.reconnectAttempts ∧ s.socket = none) := by
      intro hand
      rw [hsock] at hand
      exact Option.noConfusion hand.2
    show (tickStep s).reconnObs = none
    simp only [tickStep, hro]
    rw [if_neg hc]
    have h2 : (_cleanReconnection s).reconnObs = none := by
      simp [_cleanReconnection]
    split
    · simp [statusComplete, (coreComplete_frame (_cleanReconnection s)).2.1, h2]
    · exact h2
  · intro s i hro hidx
    have hc : ¬ ((s.reconnIdx : Int) < s.reconnectAttempts ∧ s.socket = none) :=
      fun hand => hidx hand.1
    show (tickStep s).reconnObs = none
    simp only [tickStep, hro]
    rw [if_neg hc]
    have h2 : (_cleanReconnection s).reconnObs = none := by
      simp [_cleanReconnection]
    split
    · simp [statusComplete, (coreComplete_frame (_cleanReconnection s)).2.1, h2]
    · exact h2

/-- Claim C8 witness: the no-op clause at the state after the first close
(one live session), the reconnect destruction clause at the state after
close and one tick (live socket), and the exhaustion destruction clause at
a one-attempt configuration after its attempt failed. -/
theorem single_reconnection_session_witness :
    ((statusNext false (run (initClient u0) [Ev.closeN])).reconnObs
        = (run (initClient u0) [Ev.closeN]).reconnObs ∧
      (statusNext false (run (initClient u0) [Ev.closeN])).liveSessions
        = (run (initClient u0) [Ev.closeN]).liveSessions ∧
      (statusNext false (run (initClient u0) [Ev.closeN])).reconnIdx
        = (run (initClient u0) [Ev.closeN]).reconnIdx) ∧
    (step (run (initClient u0) [Ev.closeN, Ev.tick]) Ev.tick).reconnObs
      = none ∧
    (step (run (initClient (UrlOrConfig.config cfg1))
        [Ev.closeN, Ev.tick, Ev.closeN]) Ev.tick).reconnObs = none :=
  ⟨single_reconnection_session.2.1 (run (initClient u0) [Ev.closeN]) 0 (by rfl),
    single_reconnection_session.2.2.1 (run (initClient u0) [Ev.closeN, Ev.tick])
      0 1 (by rfl) (by rfl),
    single_reconnection_session.2.2.2
      (run (initClient (UrlOrConfig.config cfg1)) [Ev.closeN, Ev.tick, Ev.closeN])
      0 (by rfl) (by decide)⟩

/-! ## Claim C3 -/

/-- The head of a deduplicated delivery never repeats the remembered last
value. -/
theorem dedupFrom_head_ne (l : List Bool) :
    ∀ b x, (dedupFrom (some b) l).head? = some x → x ≠ b := by
  induction l with
  | nil => intro b x h; simp [dedupFrom] at h
  | cons c t ih =>
    intro b x h
    by_cases hbc : b = c
    · subst hbc
      rw [show dedupFrom (some b) (b :: t) = dedupFrom (some b) t by
        simp [dedupFrom]] at h
      exact ih b x h
    · rw [show dedupFrom (some b) (c :: t) = c :: dedupFrom (some c) t by
        simp [dedupFrom, hbc]] at h
      simp only [List.head?_cons, Option.some_inj] at h
      subst h
      exact fun he => hbc he.symm

/-- A deduplicated delivery never contains two equal adjacent values. -/
theorem dedupFrom_chain (l : List Bool) :
    ∀ last, List.Chain' (fun a c => a ≠ c) (dedupFrom last l) := by
  induction l with
  | nil => intro last; simp [dedupFrom]
  | cons c t ih =>
    intro last
    by_cases hc : last = some c
    · rw [show dedupFrom last (c :: t) = dedupFrom last t by simp [dedupFrom, hc]]
      exact ih last
    · rw [show dedupFrom last (c :: t) = c :: dedupFrom (some c) t by
        simp [dedupFrom, hc]]
      rw [List.chain'_cons']
      refine ⟨?_, ih (some c)⟩
      intro b hb
      exact (dedupFrom_head_ne t c b (Option.mem_def.mp hb)).symm

/-- One step preserves the invariant that a closed status subject means a
terminated core. -/
theorem statusClosed_core_step (s : ClientState) (e : Ev)
    (h : s.statusClosed = true → s.core ≠ CoreTerm.active) :
    (step s e).statusClosed = true → (step s e).core ≠ CoreTerm.active := by
  cases e with
  | openN =>
    have hf := statusNext_frame true s
    show (statusNext true s).statusClosed = true →
      (statusNext true s).core ≠ CoreTerm.active
    rw [hf.1, hf.2.1]
    exact h
  | closeN =>
    have hf := statusNext_frame false (_cleanSocket s)
    show (statusNext false (_cleanSocket s)).statusClosed = true →
      (statusNext false (_cleanSocket s)).core ≠ CoreTerm.active
    rw [hf.1, hf.2.1]
    exact h
  | msg v =>
    show (if s.socketSubActive then coreNext v s else s).statusClosed = true →
      (if s.socketSubActive then coreNext v s else s).core ≠ CoreTerm.active
    split
    · intro hcl
      have hscl : s.statusClosed = true := by
        cases hcore : s.core <;> simpa [coreNext, hcore] using hcl
      have hne := h hscl
      cases hcore : s.core with
      | active => exact absurd hcore hne
      | errored e0 => simp [coreNext, hcore]
      | completed => simp [coreNext, hcore]
    · exact h
  | errN err =>
    show (if s.socketSubActive then connectErrorHandler err s else s).statusClosed
        = true →
      (if s.socketSubActive then connectErrorHandler err s else s).core
        ≠ CoreTerm.active
    split
    · show (connectErrorHandler err s).statusClosed = true → _
      cases hsock : s.socket with
      | none =>
        simp only [connectErrorHandler, hsock]
        intro hcl
        have hscl : s.statusClosed = true := hcl
        intro hco
        exact h hscl hco
      | some i =>
        simp only [connectErrorHandler, hsock]
        intro _
        exact coreError_ne_active err s
    · exact h
  | tick =>
    show (tickStep s).statusClosed = true → (tickStep s).core ≠ CoreTerm.active
    cases hro : s.reconnObs with
    | none => simp only [tickStep, hro]; exact h
    | some i =>
      simp only [tickStep, hro]
      split
      · intro hcl
        exact h hcl
      · split
        · intro _
          exact coreComplete_ne_active (_cleanReconnection s)
        · intro hcl
          exact h hcl

/-- In every reachable state, a closed status subject means a terminated
core. -/
theorem run_statusClosed_core (u : UrlOrConfig) (evs : List Ev) :
    (run (initClient u) evs).statusClosed = true →
    (run (initClient u) evs).core ≠ CoreTerm.active := by
  suffices hgen : ∀ s, (s.statusClosed = true → s.core ≠ CoreTerm.active) →
      ((run s evs).statusClosed = true → (run s evs).core ≠ CoreTerm.active) by
    refine hgen (initClient u) ?_
    intro hcl
    simp [initClient, _connect] at hcl
  induction evs with
  | nil => intro s hs; exact hs
  | cons e t ih =>
    intro s hs
    rw [run_cons]
    exact ih (step s e) (statusClosed_core_step s e hs)

/-- Claim C3 counterexample: the claim says the status stream completes
when the event stream core terminates, but after a fatal transport error
the core is terminated with the error while the status subject is still
open. -/
theorem status_not_completed_on_error :
    (run (initClient u0) [Ev.errN boomV]).core = CoreTerm.errored boomV ∧
    (run (initClient u0) [Ev.errN boomV]).statusClosed = false :=
  ⟨rfl, rfl⟩

/-- Claim C3 (amended): every subscriber of the deduplicated status stream
never receives two equal adjacent booleans, an open notification appends
true and a close notification appends false to the raw status subject
while the channel is live, the status subject closes only with a
terminated core, and the exhaustion tick completes the status subject
together with the core; termination of the core by an error does not
complete the status subject (see the counterexample). -/
theorem status_stream_dedup_and_completion :
    (∀ u evs t, List.Chain' (fun a c => a ≠ c)
      (dedupFrom none (((run (initClient u) evs).statusLog).drop t))) ∧
    (∀ s, s.statusClosed = false →
      (step s Ev.openN).statusLog = s.statusLog ++ [true]) ∧
    (∀ s, s.statusClosed = false →
      (step s Ev.closeN).statusLog = s.statusLog ++ [false]) ∧
    (∀ u evs, (run (initClient u) evs).statusClosed = true →
      (run (initClient u) evs).core ≠ CoreTerm.active) ∧
    (∀ s i, s.reconnObs = some i → s.socket = none →
      ¬ ((s.reconnIdx : Int) < s.reconnectAttempts) →
      (step s Ev.tick).statusClosed = true ∧
      (s.core = CoreTerm.active → (step s Ev.tick).core = CoreTerm.completed)) := by
  refine ⟨?_, ?_, ?_, ?_, ?_⟩
  · intro u evs t
    exact dedupFrom_chain _ none
  · intro s h
    show (statusNext true s).statusLog = s.statusLog ++ [true]
    simp only [statusNext, h]
    split_ifs <;> simp_all [_reconnect]
  · intro s h
    show (statusNext false (_cleanSocket s)).statusLog = s.statusLog ++ [false]
    simp only [statusNext, _cleanSocket, h]
    split_ifs <;> simp_all [_reconnect]
  · exact run_statusClosed_core
  · intro s i hro hsock hidx
    have hc : ¬ ((s.reconnIdx : Int) < s.reconnectAttempts ∧ s.socket = none) :=
      fun hand => hidx hand.1
    have hclean : (_cleanReconnection s).socket = none := hsock
    constructor
    · show (tickStep s).statusClosed = true
      simp only [tickStep, hro]
      rw [if_neg hc, if_pos hclean]
      simp [statusComplete]
    · intro hcore
      show (tickStep s).core = CoreTerm.completed
      simp only [tickStep, hro]
      rw [if_neg hc, if_pos hclean]
      have : (_cleanReconnection s).core = CoreTerm.active := hcore
      simp [statusComplete, coreComplete, this]

/-- Claim C3 witness: the open and close emission clauses at the freshly
constructed state, and the exhaustion clause at the one-attempt
configuration after its failed attempt. -/
theorem status_stream_dedup_and_completion_witness :
    (step (initClient u0) Ev.openN).statusLog = [] ++ [true] ∧
    (step (initClient u0) Ev.closeN).statusLog = [] ++ [false] ∧
    (step (run (initClient (UrlOrConfig.config cfg1))
        [Ev.closeN, Ev.tick, Ev.closeN]) Ev.tick).statusClosed = true :=
  ⟨status_stream_dedup_and_completion.2.1 (initClient u0) (by rfl),
    status_stream_dedup_and_completion.2.2.1 (initClient u0) (by rfl),
    (status_stream_dedup_and_completion.2.2.2.2
      (run (initClient (UrlOrConfig.config cfg1)) [Ev.closeN, Ev.tick, Ev.closeN])
      0 (by rfl) (by rfl) (by decide)).1⟩

/-! ## Claim C9 -/

/-- Claim C9 counterexample: the claim says the error re-exposing stream
does not terminate as a consequence of the error, but catchError switches
to of, which completes right after emitting the error item: after a fatal
error the delivered outcome is the error item followed by completion, not
a live stream. -/
theorem onError_view_completes_after_error :
    onErrorDelivered (run (initClient u0) [Ev.errN boomV])
      = ([boomV], RxTerminal.completedT) := rfl

/-- Claim C9 (amended): whenever the channel terminates with an error, the
error re-exposing stream delivers the previously delivered items, then the
error object as a normal item, and then completes (rather than erroring);
it does terminate, by completion, as a consequence of the error. -/
theorem onError_emits_error_then_completes :
    ∀ u evs err, (run (initClient u) evs).core = CoreTerm.errored err →
      (onErrorDelivered (run (initClient u) evs)).1
        = (run (initClient u) evs).coreLog ++ [err] ∧
      (onErrorDelivered (run (initClient u) evs)).2 = RxTerminal.completedT := by
  intro u evs err h
  simp [onErrorDelivered, coreTerminal, h, catchErrorOf]

/-- Claim C9 witness: a trace delivering one chat message and then a fatal
error makes the error re-exposing stream deliver the message, the error
item, and completion. -/
theorem onError_emits_error_then_completes_witness :
    (onErrorDelivered (run (initClient u0) [Ev.msg chatMsg, Ev.errN boomV])).1
      = (run (initClient u0) [Ev.msg chatMsg, Ev.errN boomV]).coreLog ++ [boomV] ∧
    (onErrorDelivered (run (initClient u0) [Ev.msg chatMsg, Ev.errN boomV])).2
      = RxTerminal.completedT :=
  onError_emits_error_then_completes u0 [Ev.msg chatMsg, Ev.errN boomV] boomV
    (by rfl)

/-! ## Claim C1 -/

/-- The first close notification after construction starts the first
reconnection session. -/
theorem first_close (u : UrlOrConfig) :
    step (initClient u) Ev.closeN = midState u 0 := rfl

/-- One failed round inside a session: an admitted tick connects a fresh
transport, whose close notification tears it down again without starting a
second session. -/
theorem mid_cycle (u : UrlOrConfig) (k : Nat)
    (h : (k : Int) < resolvedReconnectAttempts u) :
    run (midState u k) [Ev.tick, Ev.closeN] = midState u (k + 1) := by
  have h2 : List.replicate (k + 1) false ++ [false]
      = List.replicate (k + 1 + 1) false :=
    (List.replicate_succ' (k + 1) false).symm
  have h1 : step (midState u k) Ev.tick =
      { midState u k with
          socket := some (k + 1)
          socketSubActive := true
          nextSocket := k + 2
          reconnIdx := k + 1 } := by
    show tickStep (midState u k) = _
    simp [tickStep, midState, _connect, h]
  show step (step (midState u k) Ev.tick) Ev.closeN = midState u (k + 1)
  rw [h1]
  show statusNext false (_cleanSocket _) = midState u (k + 1)
  simp [statusNext, _cleanSocket, midState, h2]

/-- Iterated failed rounds: after k failed rounds the session has consumed
k ticks. -/
theorem mid_cycles (u : UrlOrConfig) :
    ∀ k : Nat, (∀ j : Nat, j < k → (j : Int) < resolvedReconnectAttempts u) →
      run (midState u 0) (cycleEvents k) = midState u k := by
  intro k
  induction k with
  | zero => intro _; rfl
  | succ m ih =>
    intro hj
    have hcyc : cycleEvents (m + 1) = cycleEvents m ++ [Ev.tick, Ev.closeN] := by
      simp [cycleEvents, List.replicate_succ']
    rw [hcyc, run_append, ih (fun j hj2 => hj j (Nat.lt_succ_of_lt hj2))]
    exact mid_cycle u m (hj m (Nat.lt_succ_self m))

/-- The tick following the last admitted attempt is refused by the
takeWhile predicate, ending the session: the completion callback cleans
the reconnection data and, with no socket present, completes the core and
the status subject. -/
theorem final_tick (u : UrlOrConfig) :
    step (midState u (resolvedReconnectAttempts u).toNat) Ev.tick
      = exhaustedState u := by
  have hno : ¬ ((((resolvedReconnectAttempts u).toNat : Nat) : Int)
      < resolvedReconnectAttempts u) := by
    omega
  show tickStep (midState u (resolvedReconnectAttempts u).toNat) = exhaustedState u
  simp only [tickStep, midState]
  rw [if_neg (by simp only [and_true]; exact hno)]
  simp [statusComplete, coreComplete, _cleanReconnection, exhaustedState]

/-- Claim C1 counterexample: after attempt exhaustion the claim says a
subsequent send has no observable effect, but send reads the next method
of the cleared socket member, so it throws a TypeError instead of being a
silent no-op (it is not a successful call without effect). -/
theorem send_after_exhaustion_raises :
    (run (initClient u0) (failEvents 10)).core = CoreTerm.completed ∧
    (run (initClient u0) (failEvents 10)).statusClosed = true ∧
    send (run (initClient u0) (failEvents 10)) JSVal.vnull
      = Except.error JsErr.typeError :=
  ⟨rfl, rfl, rfl⟩

/-- Claim C1 (amended): for every configuration, after the failure trace in
which every reconnect tick finds no transport (each attempt closes before
the next tick), the event stream core completes (does not error), the
connection status subject completes, and every subsequent send call throws
a TypeError (no payload reaches any transport) rather than silently doing
nothing. -/
theorem retry_exhaustion_completes_and_send_raises :
    ∀ (u : UrlOrConfig) (d : JSVal),
      run (initClient u) (failEvents (resolvedReconnectAttempts u).toNat)
        = exhaustedState u ∧
      (exhaustedState u).core = CoreTerm.completed ∧
      (exhaustedState u).statusClosed = true ∧
      send (exhaustedState u) d = Except.error JsErr.typeError := by
  intro u d
  refine ⟨?_, rfl, rfl, rfl⟩
  have hsplit : failEvents (resolvedReconnectAttempts u).toNat
      = Ev.closeN :: (cycleEvents (resolvedReconnectAttempts u).toNat
          ++ [Ev.tick]) := rfl
  rw [hsplit, run_cons, first_close, run_append,
    mid_cycles u (resolvedReconnectAttempts u).toNat (fun j hj => by omega)]
  show step (midState u (resolvedReconnectAttempts u).toNat) Ev.tick
      = exhaustedState u
  exact final_tick u
